import Mathlib

/-!
Shallow embedding of the field processing and validation pipeline of the
`zform` form library (`zform/fields/base.py`, `zform/fields/flist.py`,
`zform/fields/select.py`, `zform/fields/enum.py`, `zform/form.py`).

Python runtime values are modelled by the inductive type `PyVal`; Python
strings are modelled as Lean `String` (lists of characters, which matches
Python code-point indexing for the inputs considered here; `str.isdigit` is
modelled as ASCII digits). Python dictionaries are modelled as association
lists with string keys, updated in insertion order as CPython does.
External collaborators (the pydantic validation engine, the request data
source) are parameters of the embedded operations.
-/

namespace Zform

/-- Model of a Python runtime value as it flows through the form pipeline:
`none` is Python `None`, `ell` is `Ellipsis`, and `dict` is an association
list with string keys. -/
inductive PyVal where
  | none : PyVal
  | ell : PyVal
  | bool : Bool → PyVal
  | int : Int → PyVal
  | str : String → PyVal
  | list : List PyVal → PyVal
  | tuple : List PyVal → PyVal
  | dict : List (String × PyVal) → PyVal

mutual

/-- Python `==` on the modelled values: structural on matching constructors,
with the numeric quirk that `bool` compares equal to the matching `int`
(`True == 1`); mismatched constructors compare unequal. -/
def pyEq : PyVal → PyVal → Bool
  | .none, .none => true
  | .ell, .ell => true
  | .bool a, .bool b => a == b
  | .bool a, .int n => (if a then (1 : Int) else 0) == n
  | .int n, .bool a => n == (if a then (1 : Int) else 0)
  | .int a, .int b => a == b
  | .str a, .str b => a == b
  | .list a, .list b => pyEqList a b
  | .tuple a, .tuple b => pyEqList a b
  | .dict a, .dict b => pyEqDict a b
  | _, _ => false

/-- Pointwise Python `==` of two value lists. -/
def pyEqList : List PyVal → List PyVal → Bool
  | [], [] => true
  | x :: xs, y :: ys => pyEq x y && pyEqList xs ys
  | _, _ => false

/-- Pointwise Python `==` of two association lists. -/
def pyEqDict : List (String × PyVal) → List (String × PyVal) → Bool
  | [], [] => true
  | (k, x) :: xs, (l, y) :: ys => k == l && pyEq x y && pyEqDict xs ys
  | _, _ => false

end

/-- Python truthiness (`bool(v)`): `None` and `False` are falsy, numbers are
falsy at zero, strings and collections are falsy when empty, `Ellipsis` is
truthy. -/
def PyVal.truthy : PyVal → Bool
  | .none => false
  | .ell => true
  | .bool b => b
  | .int n => n != 0
  | .str s => !s.isEmpty
  | .list l => !l.isEmpty
  | .tuple l => !l.isEmpty
  | .dict l => !l.isEmpty

/-- Python `x or y`: `x` when truthy, else `y`. -/
def pyOr (x y : PyVal) : PyVal := if x.truthy then x else y

/-- Python `str.isdigit()` restricted to ASCII: nonempty and all characters
are decimal digits. -/
def pyIsDigit (s : List Char) : Bool := !s.isEmpty && s.all Char.isDigit

/-- Value of `int(s)` for a string of decimal digits. -/
def digitsToNat (s : List Char) : Nat :=
  s.foldl (fun a c => 10 * a + (c.toNat - 48)) 0

/-- First component of Python `s.split(".", maxsplit=1)`: the characters
before the first dot (the whole string when there is no dot). -/
def firstDotSeg (s : List Char) : List Char := s.takeWhile (fun c => c != '.')

/-- The per-key test of `FieldList._extra_indices` (`zform/fields/flist.py`):
a key contributes an index when `name.startswith(self.id)` holds and the
dot-delimited segment of `name[len(self.id) + 1 :]` is purely digits; the
contributed index is `int` of that segment.  Note the `startswith` test does
not require a dot after the id: the character at position `len(id)` is
skipped by the slice whatever it is. -/
def indexOfKey (fieldId key : String) : Option Nat :=
  if fieldId.data.isPrefixOf key.data then
    let seg := firstDotSeg (key.data.drop (fieldId.data.length + 1))
    if pyIsDigit seg then some (digitsToNat seg) else Option.none
  else Option.none

/-- The per-key test as the specification words it: the key must start with
the list id followed by a literal dot, and the next dot-delimited segment
must be purely digits. -/
def specIndexOfKey (fieldId key : String) : Option Nat :=
  if (fieldId.data ++ ['.']).isPrefixOf key.data then
    let seg := firstDotSeg (key.data.drop (fieldId.data.length + 1))
    if pyIsDigit seg then some (digitsToNat seg) else Option.none
  else Option.none

/-- Insert a number into a strictly ascending list, keeping it strictly
ascending (duplicates are dropped): the model of building `sorted(set(...))`. -/
def insertSortedDedup (n : Nat) : List Nat → List Nat
  | [] => [n]
  | m :: ms =>
    if n < m then n :: m :: ms
    else if n = m then m :: ms
    else m :: insertSortedDedup n ms

/-- `sorted(set(l))`: strictly ascending list of the distinct members of `l`. -/
def sortDedup (l : List Nat) : List Nat := l.foldr insertSortedDedup []

/-- `FieldList._extra_indices` (`zform/fields/flist.py` lines 222-239):
`sorted({int(seg(name)) for name in form_data if test(name)})` over the flat
form-data keys. -/
def extraIndices (fieldId : String) (keys : List String) : List Nat :=
  sortDedup (keys.filterMap (indexOfKey fieldId))

/-- The index extraction as the specification words it (keys must carry a
literal dot right after the prefix). -/
def specExtractIndices (fieldId : String) (keys : List String) : List Nat :=
  sortDedup (keys.filterMap (specIndexOfKey fieldId))

/-- Python sequence types among the modelled values (`str`, `list`, `tuple`):
how the specification's word "sequence" reads on the Python data model. -/
def PyVal.isSeq : PyVal → Bool
  | .str _ => true
  | .list _ => true
  | .tuple _ => true
  | _ => false

/-- Number of elements of a Python sequence value. -/
def PyVal.seqLen : PyVal → Nat
  | .str s => s.length
  | .list l => l.length
  | .tuple l => l.length
  | _ => 0

/-- `d.get(k, dflt)` on an association-list dictionary. -/
def dictGetD (d : List (String × PyVal)) (k : String) (dflt : PyVal) : PyVal :=
  match d.lookup k with
  | some v => v
  | Option.none => dflt

/-- `k in d` on an association-list dictionary. -/
def dictHas (d : List (String × PyVal)) (k : String) : Bool :=
  (d.lookup k).isSome

/-- `d[k] = v`: CPython keeps the position of an existing key and appends a
new one (keys are unique in a Python dictionary, so replacing the first
occurrence is the dictionary-assignment semantics). -/
def dictSet : List (String × PyVal) → String → PyVal → List (String × PyVal)
  | [], k, v => [(k, v)]
  | p :: ps, k, v => if p.1 == k then (k, v) :: ps else p :: dictSet ps k v

/-- `d.pop(k, dflt)`: the popped value and the dictionary without the key. -/
def dictPop (d : List (String × PyVal)) (k : String) (dflt : PyVal) :
    PyVal × List (String × PyVal) :=
  (dictGetD d k dflt, d.filter (fun p => p.1 != k))

/-- `d.update(e)` on association-list dictionaries. -/
def dictUpdate (d e : List (String × PyVal)) : List (String × PyVal) :=
  e.foldl (fun a p => dictSet a p.1 p.2) d

/-- The per-field transient state of `FieldBase` (`zform/fields/base.py`):
`value` is `self._value`, `dataAttr` is `self._data` (the display value),
`rawData` is `self.raw_data`, and `errors` holds the messages of the last
processing attempt (error objects are modelled by their `msg` strings). -/
structure FieldState where
  value : PyVal
  dataAttr : PyVal
  rawData : PyVal
  errors : List String

/-- A freshly constructed field before any processing: every slot is `None`
and there are no errors. -/
def initFieldState : FieldState :=
  { value := PyVal.none, dataAttr := PyVal.none, rawData := PyVal.none, errors := [] }

/-- The external schema/validation engine consumed by a leaf field:
`validate` is `model_field.validate` (typed value and error-message list,
empty on success) and `serialize` is `model_field.serialize` wrapped in
`fail_silently` (`Option.none` models a swallowed exception). -/
structure Engine where
  validate : PyVal → PyVal × List String
  serialize : PyVal → Option PyVal

/-- `fail_silently(self.model_field.serialize, v_) or v_` on the success path
of `FieldBase.process`: the serialized value when serialization neither
raises nor returns a falsy value, otherwise the typed value itself. -/
def serializedDisplay (eng : Engine) (v : PyVal) : PyVal :=
  match eng.serialize v with
  | some s => if s.truthy then s else v
  | Option.none => v

/-- `FieldBase.process` (`zform/fields/base.py` lines 280-299): clear the
errors, validate through the engine, on success assign `_value` and recompute
`_data`, and populate `errors` only when `suppress_error` is false. -/
def fieldProcess (eng : Engine) (st : FieldState) (data : PyVal)
    (suppressError : Bool) : FieldState :=
  let r := eng.validate data
  let st1 : FieldState := { st with errors := [] }
  let st2 : FieldState :=
    if r.2.isEmpty then
      { st1 with value := r.1, dataAttr := serializedDisplay eng r.1 }
    else st1
  if suppressError then st2 else { st2 with errors := r.2 }

/-- The `FieldBase.data` property (`zform/fields/base.py` lines 211-219):
`self.raw_data if self.raw_data else self._data`. -/
def dataProp (st : FieldState) : PyVal :=
  if st.rawData.truthy then st.rawData else st.dataAttr

/-- One item of a `FieldList`: a fresh instance of the base field type
addressed at `<list.id>.<index>`. -/
structure ListItem where
  aliasName : String
  state : FieldState

/-- The state of a `FieldList` (`zform/fields/flist.py`): its own `FieldBase`
slots plus the dynamic `_items` sequence. -/
structure ListFieldState where
  base : FieldState
  items : List ListItem

/-- The state of a freshly created item field: `create_from_annotation`
triggers `on_field_ready`, which loads the (absent) default by processing
`None` with errors suppressed. -/
def freshItem (eng : Engine) : FieldState :=
  fieldProcess eng initFieldState PyVal.none true

/-- `FieldList.add_item` (`zform/fields/flist.py` lines 248-259): build a new
base-field instance at index `len(self._items)` and append it. -/
def addItem (eng : Engine) (fieldId : String) (st : ListFieldState) :
    ListFieldState :=
  let idx := st.items.length
  { st with items := st.items ++ [⟨fieldId ++ "." ++ toString idx, freshItem eng⟩] }

/-- One iteration of the loop in `FieldList.process`:
`self.add_item().process(item_data, suppress_error=suppress_error)`. -/
def flistProcessStep (eng : Engine) (fieldId : String) (suppressError : Bool)
    (items : List ListItem) (el : PyVal) : List ListItem :=
  items ++ [⟨fieldId ++ "." ++ toString items.length,
             fieldProcess eng (freshItem eng) el suppressError⟩]

/-- `FieldList.process` (`zform/fields/flist.py` lines 155-169): clear the
items; when the input `isinstance(data, list)`, add and process one item per
element in order; any other input leaves zero items. -/
def flistProcess (eng : Engine) (fieldId : String) (st : ListFieldState)
    (data : PyVal) (suppressError : Bool) : ListFieldState :=
  match data with
  | .list l => { st with items := l.foldl (flistProcessStep eng fieldId suppressError) [] }
  | _ => { st with items := [] }

/-- `FieldList.__iter__` (`zform/fields/flist.py` lines 261-271): if the item
list is empty, `add_item()` first; then iterate the items.  Returns the
mutated state together with the iterated items. -/
def flistIter (eng : Engine) (fieldId : String) (st : ListFieldState) :
    ListFieldState × List ListItem :=
  let st1 := if st.items.length = 0 then addItem eng fieldId st else st
  (st1, st1.items)

/-- The `ResolverResult` bundle returned by `process_form_data`: a data
dictionary, the error messages, and a raw-data dictionary. -/
structure ResolverResult where
  data : List (String × PyVal)
  errors : List String
  rawData : List (String × PyVal)

/-- `FieldList.process_form_data` (`zform/fields/flist.py` lines 171-220).
`resolve i` abstracts the recursive `field.process_form_data` call of the
item built at index `i` (its `ResolverResult`); `name` is `self.name`,
`alias` is `self.model_field.alias`, `dflt` is `self.default` and `keys` are
the flat form-data keys. -/
def flistProcessFormData (resolve : Nat → ResolverResult)
    (fieldId name aliasName : String) (dflt : PyVal) (keys : List String) :
    ResolverResult :=
  let indices := extraIndices fieldId keys
  let vals : List PyVal := indices.map fun i =>
    let res := resolve i
    if (PyVal.dict res.data).truthy then dictGetD res.data name PyVal.none
    else PyVal.none
  let rawData : List (String × PyVal) := indices.map fun i =>
    (toString i, dictGetD (resolve i).rawData name PyVal.none)
  let itemErrs : List String := (indices.map fun i => (resolve i).errors).flatten
  let values : PyVal := if vals.isEmpty && dflt.truthy then dflt else PyVal.list vals
  let errs : List String :=
    if vals.isEmpty && !dflt.truthy then itemErrs ++ ["Input must be a list"]
    else itemErrs
  { data := [(aliasName, pyOr values dflt)],
    errors := errs,
    rawData := [(aliasName, PyVal.dict rawData)] }

mutual

/-- Python `str()`/`repr()` of a value as it appears inside a formatted
list, e.g. in `"Input should be in {}".format(...)`. -/
def pyRepr : PyVal → String
  | .none => "None"
  | .ell => "Ellipsis"
  | .bool b => if b then "True" else "False"
  | .int n => toString n
  | .str s => "'" ++ s ++ "'"
  | .list l => "[" ++ pyReprSeq l ++ "]"
  | .tuple l => "(" ++ pyReprSeq l ++ ")"
  | .dict _ => "\x7b...\x7d"

/-- Comma-separated `repr`s of the elements of a sequence. -/
def pyReprSeq : List PyVal → String
  | [] => ""
  | [x] => pyRepr x
  | x :: xs => pyRepr x ++ ", " ++ pyReprSeq xs

end

/-- Python `str(v)` for the scalar values a choice field declares as tokens. -/
def pyStrOf : PyVal → String
  | .str s => s
  | .int n => toString n
  | .bool b => if b then "True" else "False"
  | .none => "None"
  | .ell => "Ellipsis"
  | v => pyRepr v

/-- The characters Python `str.strip()` removes (ASCII whitespace). -/
def isPySpace (c : Char) : Bool :=
  c == ' ' || c == '\t' || c == '\n' || c == '\r' || c == '\x0b' || c == '\x0c'

/-- `ChoiceField.field_after_form_validation_action`, single-valued branch
(`zform/fields/select.py` lines 110-120): an all-whitespace submission is
accepted as the empty string when the field is not required; otherwise the
value must be a member of `self._choice_values` under Python `==` (no
`_coerce_type` conversion is applied here), else a `ValueError` carrying the
first ten declared tokens is raised. -/
def choiceAfterValidationSingle (choiceValues : List PyVal) (required : Bool)
    (v : String) : Except String PyVal :=
  if v.data.all isPySpace && !required then .ok (PyVal.str "")
  else if choiceValues.any (fun c => pyEq c (PyVal.str v)) then .ok (PyVal.str v)
  else .error ("Input should be in " ++ pyRepr (PyVal.list (choiceValues.take 10)))

/-- The membership test as the specification words it: the submitted token is
compared against the declared tokens after a `coerce_type` conversion (string
by default), so that a submitted string can match a non-string token. -/
def specChoiceMemberSingle (choiceValues : List PyVal) (v : String) : Bool :=
  choiceValues.any fun c => pyStrOf c == v

/-- The observable configuration of the new field produced by
`FieldBase.rebuild`: its `name`, flat `alias`/`id`, annotation tag, loaded
default (`Ellipsis` becomes `None` via `on_field_ready`), and the
construction arguments the metaclass stores on it. -/
structure RebuiltField where
  name : PyVal
  aliasName : PyVal
  annot : PyVal
  dflt : PyVal
  stored : List (String × PyVal)

/-- `FieldBase.rebuild` (`zform/fields/base.py` lines 503-555) together with
the construction of the new instance through `FieldBaseMeta.__call__` (lines
66-85).  `stored` is the template's `ZFORM_FIELD_ATTRIBUTES` dictionary
(mutated in place by the source; the mutated dictionary is returned alongside
the new field), `selfName` is the template's `name` attribute and `origAnnot`
its `get_form_field_python_type`.  Building
`AttributeDict(**field_info_args, alias=..., annotation=..., default=...,
default_factory=...)` raises `TypeError` when `field_info_args` already
contains one of those keywords. -/
def rebuild (stored : List (String × PyVal)) (selfName : String)
    (origAnnot : PyVal) (annot name aliasName dflt dfltFactory : PyVal) :
    Except String (RebuiltField × List (String × PyVal)) :=
  let fia := match dictGetD stored "field_info_args" (PyVal.dict []) with
    | .dict d => d
    | _ => []
  let dflt1 := pyOr dflt (dictGetD fia "default" PyVal.ell)
  let dfltFactory1 := pyOr dfltFactory (dictGetD fia "default_factory" PyVal.none)
  let name1 := pyOr name (PyVal.str selfName)
  let alias1 := pyOr aliasName name1
  let annot1 := pyOr annot origAnnot
  if dictHas fia "alias" || dictHas fia "annotation" || dictHas fia "default"
      || dictHas fia "default_factory" then
    .error "TypeError: got multiple values for keyword argument"
  else
    let newFia := fia ++ [("alias", alias1), ("annotation", annot1),
                          ("default", dflt1), ("default_factory", dfltFactory1)]
    let z1 := dictSet (dictSet stored "name" name1) "field_info_args" (PyVal.dict newFia)
    let popped := dictPop z1 "args" (PyVal.tuple [])
    let callKwargs := (dictPop popped.2 "field_info_args" (PyVal.dict [])).2
    .ok ({ name := name1, aliasName := alias1, annot := annot1,
           dflt := match dflt1 with
             | .ell => PyVal.none
             | d => d,
           stored := dictSet callKwargs "args" popped.1 }, popped.2)

/-- What `FormManager._process_form_fields_data` sees of one top-level field:
its `model_field.name`, its `model_field.alias` and the `ResolverResult` of
its `process_form_data` call. -/
structure FieldOutcome where
  name : String
  aliasName : String
  res : ResolverResult

/-- `errors.setdefault(key, []).extend(msgs)` on a name-to-messages map. -/
def errExtend (d : List (String × List String)) (k : String)
    (es : List String) : List (String × List String) :=
  if (d.lookup k).isSome then
    d.map (fun p => if p.1 == k then (p.1, p.2 ++ es) else p)
  else d ++ [(k, es)]

/-- `FormManager._process_form_fields_data` (`zform/form.py` lines 295-327)
with `by_alias=True`: aggregate each field's typed value keyed by alias, its
error messages keyed by name, and its raw data. -/
def processFormFieldsData (outs : List FieldOutcome) :
    List (String × PyVal) × List (String × List String) × List (String × PyVal) :=
  outs.foldl
    (fun acc o =>
      let vals := if (PyVal.dict o.res.data).truthy then
          dictSet acc.1 o.aliasName (dictGetD o.res.data o.name PyVal.none)
        else acc.1
      let errs := if o.res.errors.isEmpty then acc.2.1
        else errExtend acc.2.1 o.name o.res.errors
      (vals, errs, dictUpdate acc.2.2 o.res.rawData))
    ([], [], [])

/-- The transient state of a `FormManager` (`zform/form.py`): the validated
`value`, the `errors` map and the aggregated `raw_data`. -/
structure ManagerState where
  value : PyVal
  errors : List (String × List String)
  rawData : List (String × PyVal)

/-- A freshly constructed manager: no value, no errors. -/
def initManager : ManagerState :=
  { value := PyVal.none, errors := [], rawData := [] }

/-- `FormManager.process_form` (`zform/form.py` lines 273-293):
aggregate the per-field results; when no field-level errors occurred run one
whole-record validation (`formValidate` abstracts `model_field.validate`),
setting `value` on success and `errors["form"]` on failure; otherwise store
the field-level error map. -/
def processForm (formValidate : List (String × PyVal) → PyVal × List String)
    (outs : List FieldOutcome) (st : ManagerState) : ManagerState :=
  let r := processFormFieldsData outs
  let st1 := { st with rawData := r.2.2 }
  if r.2.1.isEmpty then
    let fv := formValidate r.1
    let st2 := if fv.2.isEmpty then { st1 with value := fv.1 } else st1
    if fv.2.isEmpty then st2 else { st2 with errors := [("form", fv.2)] }
  else { st1 with errors := r.2.1 }

/-- `FormManager.validate_async` (`zform/form.py` lines 255-271): when
`validate_on_write` holds and the (lowercased) request method is not one of
the three write verbs, short-circuit to `False` without touching any state;
otherwise run `process_form` and report whether the error map is empty. -/
def validateAsync (formValidate : List (String × PyVal) → PyVal × List String)
    (outs : List FieldOutcome) (method : String) (validateOnWrite : Bool)
    (st : ManagerState) : ManagerState × Bool :=
  if validateOnWrite && !(method == "post" || method == "patch" || method == "put") then
    (st, false)
  else
    let st1 := processForm formValidate outs st
    (st1, st1.errors.isEmpty)

theorem mem_insertSortedDedup {a n : Nat} {l : List Nat} :
    a ∈ insertSortedDedup n l ↔ a = n ∨ a ∈ l := by
  induction l with
  | nil => simp [insertSortedDedup]
  | cons m ms ih =>
    simp only [insertSortedDedup]
    split_ifs with h1 h2
    · simp [List.mem_cons]
    · subst h2
      simp [List.mem_cons]
    · simp [List.mem_cons, ih]
      tauto

theorem sorted_insertSortedDedup {n : Nat} {l : List Nat}
    (h : l.Sorted (· < ·)) : (insertSortedDedup n l).Sorted (· < ·) := by
  induction l with
  | nil => simp [insertSortedDedup]
  | cons m ms ih =>
    rw [List.sorted_cons] at h
    simp only [insertSortedDedup]
    split_ifs with h1 h2
    · rw [List.sorted_cons]
      refine ⟨?_, by rw [List.sorted_cons]; exact h⟩
      intro b hb
      rcases List.mem_cons.mp hb with hb | hb
      · omega
      · exact lt_trans h1 (h.1 b hb)
    · rw [List.sorted_cons]
      exact h
    · rw [List.sorted_cons]
      refine ⟨?_, ih h.2⟩
      intro b hb
      rcases mem_insertSortedDedup.mp hb with hb | hb
      · omega
      · exact h.1 b hb

theorem sorted_sortDedup (l : List Nat) : (sortDedup l).Sorted (· < ·) := by
  induction l with
  | nil => simp [sortDedup]
  | cons x xs ih => exact sorted_insertSortedDedup ih

theorem mem_sortDedup {a : Nat} {l : List Nat} : a ∈ sortDedup l ↔ a ∈ l := by
  induction l with
  | nil => simp [sortDedup]
  | cons x xs ih =>
    simp only [sortDedup, List.foldr_cons] at *
    rw [mem_insertSortedDedup, ih, List.mem_cons]

theorem nodup_sortDedup (l : List Nat) : (sortDedup l).Nodup :=
  (sorted_sortDedup l).nodup

theorem sortDedup_eq_of_mem_iff {l l' : List Nat}
    (h : ∀ a, a ∈ l ↔ a ∈ l') : sortDedup l = sortDedup l' := by
  refine List.eq_of_perm_of_sorted ?_ (sorted_sortDedup l) (sorted_sortDedup l')
  refine (List.perm_ext_iff_of_nodup (nodup_sortDedup l) (nodup_sortDedup l')).mpr ?_
  intro a
  rw [mem_sortDedup, mem_sortDedup, h a]

/-- C1 (corrected): the index extraction returns a strictly ascending,
duplicate-free list; an index is reported exactly when some key passes the
source's per-key test `indexOfKey` (startswith the id, then a purely-digit
segment after skipping one character); the result does not depend on the
order of the keys, and gaps between indices are preserved since membership
alone decides the output. -/
theorem extract_indices_amended (fieldId : String) (keys keys2 : List String)
    (hperm : keys.Perm keys2) :
    (extraIndices fieldId keys).Sorted (· < ·) ∧
    (extraIndices fieldId keys).Nodup ∧
    (∀ n, n ∈ extraIndices fieldId keys ↔
        ∃ k, k ∈ keys ∧ indexOfKey fieldId k = some n) ∧
    extraIndices fieldId keys = extraIndices fieldId keys2 := by
  refine ⟨sorted_sortDedup _, nodup_sortDedup _, ?_, ?_⟩
  · intro n
    rw [extraIndices, mem_sortDedup, List.mem_filterMap]
  · refine sortDedup_eq_of_mem_iff ?_
    intro a
    rw [List.mem_filterMap, List.mem_filterMap]
    constructor
    · rintro ⟨k, hk, he⟩
      exact ⟨k, hperm.mem_iff.mp hk, he⟩
    · rintro ⟨k, hk, he⟩
      exact ⟨k, hperm.mem_iff.mpr hk, he⟩

/-- Witness for C1: the extraction at the spec's own example, applied with
the key order reversed. -/
theorem extract_indices_amended_witness :
    extraIndices "xys" ["xys.3", "xys.0", "other_field", "xys.1"] =
      extraIndices "xys" ["xys.0", "xys.1", "xys.3", "other_field"] ∧
    extraIndices "xys" ["xys.0", "xys.1", "xys.3", "other_field"] = [0, 1, 3] := by
  refine ⟨(extract_indices_amended "xys" _ _ ?_).2.2.2, by decide⟩
  decide

/-- Counterexample to C1 as stated: the key `"xys12"` does not start with
`"xys."`, so per the claim it must contribute nothing; the source's
`startswith(self.id)` test (no dot required) accepts it and reports index 2
(the digits after the skipped character `1`), while the spec-worded
extraction reports nothing. -/
theorem extract_indices_claim_counterexample :
    extraIndices "xys" ["xys12"] = [2] ∧
    specExtractIndices "xys" ["xys12"] = [] := by
  exact ⟨by decide, by decide⟩

/-- C4 (confirmed): `FieldBase.process` first clears the errors; when the
engine reports errors, `_value` and `_data` are left unchanged and `errors`
is populated exactly when `suppress_error` is false; when the engine reports
none, `_value` is assigned the typed result and `errors` stays empty — so
`_value` is (re)assigned precisely by the zero-error processing calls. -/
theorem field_process_spec (eng : Engine) (st : FieldState) (data : PyVal)
    (suppressError : Bool) :
    ((eng.validate data).2 = [] →
        (fieldProcess eng st data suppressError).value = (eng.validate data).1 ∧
        (fieldProcess eng st data suppressError).errors = []) ∧
    ((eng.validate data).2 ≠ [] →
        (fieldProcess eng st data suppressError).value = st.value ∧
        (fieldProcess eng st data suppressError).dataAttr = st.dataAttr ∧
        (fieldProcess eng st data suppressError).errors =
          (if suppressError then [] else (eng.validate data).2)) := by
  constructor
  · intro h
    cases suppressError <;> simp [fieldProcess, h]
  · intro h
    have hne : (eng.validate data).2.isEmpty = false := by
      simpa [List.isEmpty_iff] using h
    cases suppressError <;> simp [fieldProcess, hne]

/-- Witness for C4: a trivially succeeding engine assigns the value with no
errors; a failing engine leaves the fresh state's value at `None` and, with
errors not suppressed, surfaces the engine's message. -/
theorem field_process_spec_witness :
    (fieldProcess ⟨fun v => (v, []), fun _ => Option.none⟩ initFieldState
        (PyVal.str "a") true).value = PyVal.str "a" ∧
    (fieldProcess ⟨fun v => (v, []), fun _ => Option.none⟩ initFieldState
        (PyVal.str "a") true).errors = [] ∧
    (fieldProcess ⟨fun v => (v, ["bad"]), fun _ => Option.none⟩ initFieldState
        (PyVal.str "a") false).value = PyVal.none ∧
    (fieldProcess ⟨fun v => (v, ["bad"]), fun _ => Option.none⟩ initFieldState
        (PyVal.str "a") false).errors = ["bad"] :=
  ⟨((field_process_spec _ initFieldState (PyVal.str "a") true).1 rfl).1,
   ((field_process_spec _ initFieldState (PyVal.str "a") true).1 rfl).2,
   ((field_process_spec _ initFieldState (PyVal.str "a") false).2 (by simp)).1,
   ((field_process_spec _ initFieldState (PyVal.str "a") false).2 (by simp)).2.2⟩

/-- C9 (confirmed): the `data` property reports the raw submission exactly
when that raw submission is truthy; a falsy `raw_data` (absent, empty
string, zero, empty list) makes the property fall back to the stored display
value, so a falsy raw submission is never what `data` reports. -/
theorem data_property_spec (st : FieldState) :
    (st.rawData.truthy = true ∧ dataProp st = st.rawData) ∨
    (st.rawData.truthy = false ∧ dataProp st = st.dataAttr) := by
  cases h : st.rawData.truthy with
  | false => exact Or.inr ⟨rfl, by simp [dataProp, h]⟩
  | true => exact Or.inl ⟨rfl, by simp [dataProp, h]⟩

/-- C10 (confirmed): on a successful `process`, the display value `_data`
becomes the engine's serialization of the typed value exactly when that
serialization exists and is truthy; when serialization raises (swallowed by
`fail_silently`) or returns a falsy value, `_data` becomes the typed value
itself. -/
theorem process_display_spec (eng : Engine) (st : FieldState) (data : PyVal)
    (suppressError : Bool) (h : (eng.validate data).2 = []) :
    (∀ s, eng.serialize (eng.validate data).1 = some s →
        (fieldProcess eng st data suppressError).dataAttr =
          (if s.truthy then s else (eng.validate data).1)) ∧
    (eng.serialize (eng.validate data).1 = Option.none →
        (fieldProcess eng st data suppressError).dataAttr =
          (eng.validate data).1) := by
  constructor
  · intro s hs
    cases suppressError <;> simp [fieldProcess, h, serializedDisplay, hs]
  · intro hs
    cases suppressError <;> simp [fieldProcess, h, serializedDisplay, hs]

/-- Witness for C10: a truthy serialization is displayed as-is; a falsy
serialization (empty string) and a raising serialization both fall back to
the typed value. -/
theorem process_display_spec_witness :
    (fieldProcess ⟨fun v => (v, []), fun _ => some (PyVal.str "shown")⟩
        initFieldState (PyVal.int 3) true).dataAttr = PyVal.str "shown" ∧
    (fieldProcess ⟨fun v => (v, []), fun _ => some (PyVal.str "")⟩
        initFieldState (PyVal.int 3) true).dataAttr = PyVal.int 3 ∧
    (fieldProcess ⟨fun v => (v, []), fun _ => Option.none⟩
        initFieldState (PyVal.int 3) true).dataAttr = PyVal.int 3 :=
  ⟨(process_display_spec _ initFieldState (PyVal.int 3) true rfl).1
      (PyVal.str "shown") rfl,
   (process_display_spec _ initFieldState (PyVal.int 3) true rfl).1
      (PyVal.str "") rfl,
   (process_display_spec _ initFieldState (PyVal.int 3) true rfl).2 rfl⟩

/-- C3 (confirmed): when zero indices are discovered under the list's
prefix, a truthy default becomes the resulting value with no synthetic
error, while an absent default (`None`) yields exactly the one synthetic
error message "Input must be a list". -/
theorem flist_zero_indices (resolve : Nat → ResolverResult)
    (fieldId name aliasName : String) (dflt : PyVal) (keys : List String)
    (h : extraIndices fieldId keys = []) :
    (dflt.truthy = true →
        (flistProcessFormData resolve fieldId name aliasName dflt keys).data =
          [(aliasName, dflt)] ∧
        (flistProcessFormData resolve fieldId name aliasName dflt keys).errors
          = []) ∧
    (dflt = PyVal.none →
        (flistProcessFormData resolve fieldId name aliasName dflt keys).errors
          = ["Input must be a list"]) := by
  constructor
  · intro ht
    simp [flistProcessFormData, h, ht, pyOr]
  · intro hd
    subst hd
    simp [flistProcessFormData, h, PyVal.truthy]

/-- Witness for C3: with only an unrelated key submitted, a list field with
default `["d"]` resolves to its default with no error, and one with no
default carries exactly the synthetic error. -/
theorem flist_zero_indices_witness :
    (flistProcessFormData (fun _ => ⟨[], [], []⟩) "xys" "xys" "xys"
        (PyVal.list [PyVal.str "d"]) ["other_field"]).data =
      [("xys", PyVal.list [PyVal.str "d"])] ∧
    (flistProcessFormData (fun _ => ⟨[], [], []⟩) "xys" "xys" "xys"
        PyVal.none ["other_field"]).errors = ["Input must be a list"] :=
  ⟨((flist_zero_indices (fun _ => ⟨[], [], []⟩) "xys" "xys" "xys"
        (PyVal.list [PyVal.str "d"]) ["other_field"] (by decide)).1 (by decide)).1,
   (flist_zero_indices (fun _ => ⟨[], [], []⟩) "xys" "xys" "xys"
        PyVal.none ["other_field"] (by decide)).2 rfl⟩

/-- C8 (confirmed): iterating a list field whose items sequence is empty
materializes exactly one placeholder item, and the field's own validated
state (`_value`, `_data`, `raw_data`, `errors`) is untouched by the
iteration. -/
theorem flist_iter_empty (eng : Engine) (fieldId : String)
    (st : ListFieldState) (h : st.items = []) :
    ((flistIter eng fieldId st).2).length = 1 ∧
    (flistIter eng fieldId st).1.base = st.base ∧
    (flistIter eng fieldId st).2 = (flistIter eng fieldId st).1.items := by
  refine ⟨?_, ?_, rfl⟩ <;> simp [flistIter, h, addItem]

/-- Witness for C8: iterating a freshly cleared list field yields one
placeholder and keeps the base state. -/
theorem flist_iter_empty_witness :
    ((flistIter ⟨fun v => (v, []), fun _ => Option.none⟩ "xys"
        ⟨initFieldState, []⟩).2).length = 1 ∧
    (flistIter ⟨fun v => (v, []), fun _ => Option.none⟩ "xys"
        ⟨initFieldState, []⟩).1.base = initFieldState :=
  ⟨(flist_iter_empty _ "xys" ⟨initFieldState, []⟩ rfl).1,
   (flist_iter_empty _ "xys" ⟨initFieldState, []⟩ rfl).2.1⟩

theorem foldl_flistProcessStep (eng : Engine) (fieldId : String)
    (suppressError : Bool) (l : List PyVal) (init : List ListItem) :
    l.foldl (flistProcessStep eng fieldId suppressError) init =
      init ++ (l.enumFrom init.length).map
        (fun p => ⟨fieldId ++ "." ++ toString p.1,
                   fieldProcess eng (freshItem eng) p.2 suppressError⟩) := by
  induction l generalizing init with
  | nil => simp
  | cons x xs ih =>
    rw [List.foldl_cons, ih]
    simp [flistProcessStep, List.enumFrom_cons]

/-- C5 (corrected): `FieldList.process` clears the items; a Python `list`
input yields one freshly built and processed item per element in order (the
item at position `i` is addressed `<id>.<i>` and holds the processing result
of the i-th element), so the item count equals the list's length; every
other input — including non-list sequences — yields zero items with no
error, and the list field's own state is untouched either way. -/
theorem flist_process_amended (eng : Engine) (fieldId : String)
    (st : ListFieldState) (suppressError : Bool) :
    (∀ l, (flistProcess eng fieldId st (PyVal.list l) suppressError).items =
        l.enum.map (fun p => ⟨fieldId ++ "." ++ toString p.1,
            fieldProcess eng (freshItem eng) p.2 suppressError⟩) ∧
      (flistProcess eng fieldId st (PyVal.list l) suppressError).items.length
        = l.length ∧
      (flistProcess eng fieldId st (PyVal.list l) suppressError).base
        = st.base) ∧
    (∀ d, (∀ l, d ≠ PyVal.list l) →
        (flistProcess eng fieldId st d suppressError).items = [] ∧
        (flistProcess eng fieldId st d suppressError).base = st.base) := by
  constructor
  · intro l
    refine ⟨?_, ?_, rfl⟩
    · show l.foldl (flistProcessStep eng fieldId suppressError) [] = _
      rw [foldl_flistProcessStep]
      rfl
    · show (l.foldl (flistProcessStep eng fieldId suppressError) []).length = _
      rw [foldl_flistProcessStep]
      simp
  · intro d hd
    cases d <;> first
      | exact absurd rfl (hd _)
      | exact ⟨rfl, rfl⟩

/-- Witness for C5: a two-element list input yields two items, a non-list
input yields zero. -/
theorem flist_process_amended_witness :
    (flistProcess ⟨fun v => (v, []), fun _ => Option.none⟩ "xys"
        ⟨initFieldState, []⟩ (PyVal.list [PyVal.str "a", PyVal.str "b"])
        true).items.length = 2 ∧
    (flistProcess ⟨fun v => (v, []), fun _ => Option.none⟩ "xys"
        ⟨initFieldState, []⟩ (PyVal.str "non_list_value") true).items = [] :=
  ⟨((flist_process_amended ⟨fun v => (v, []), fun _ => Option.none⟩ "xys"
        ⟨initFieldState, []⟩ true).1 [PyVal.str "a", PyVal.str "b"]).2.1,
   ((flist_process_amended ⟨fun v => (v, []), fun _ => Option.none⟩ "xys"
        ⟨initFieldState, []⟩ true).2 (PyVal.str "non_list_value")
        (fun _ h => PyVal.noConfusion h)).1⟩

/-- Counterexample to C5 as stated: a Python tuple is a sequence of length
2, yet `isinstance(data, list)` rejects it, so `process` yields zero items
instead of the claimed one item per element. -/
theorem flist_process_claim_counterexample :
    PyVal.isSeq (PyVal.tuple [PyVal.str "a", PyVal.str "b"]) = true ∧
    PyVal.seqLen (PyVal.tuple [PyVal.str "a", PyVal.str "b"]) = 2 ∧
    (flistProcess ⟨fun v => (v, []), fun _ => Option.none⟩ "xys"
        ⟨initFieldState, []⟩ (PyVal.tuple [PyVal.str "a", PyVal.str "b"])
        true).items.length = 0 :=
  ⟨rfl, rfl, rfl⟩

/-- C6 (corrected): in form-submission mode, the single-valued choice check
accepts an all-whitespace token as the empty string when the field is not
required; otherwise it accepts the token exactly when the validated value is
a member of the declared token values under plain Python equality — no
`coerce_type` conversion is applied in this check — and a non-member fails
with "Input should be in " followed by the first ten declared tokens. -/
theorem choice_single_amended (choiceValues : List PyVal) (required : Bool)
    (v : String) :
    (v.data.all isPySpace = true ∧ required = false →
        choiceAfterValidationSingle choiceValues required v
          = .ok (PyVal.str "")) ∧
    (¬ (v.data.all isPySpace = true ∧ required = false) →
        ((∃ c, c ∈ choiceValues ∧ pyEq c (PyVal.str v) = true) →
            choiceAfterValidationSingle choiceValues required v
              = .ok (PyVal.str v)) ∧
        ((∀ c, c ∈ choiceValues → pyEq c (PyVal.str v) = false) →
            choiceAfterValidationSingle choiceValues required v =
              .error ("Input should be in "
                ++ pyRepr (PyVal.list (choiceValues.take 10))))) := by
  constructor
  · rintro ⟨h1, h2⟩
    simp [choiceAfterValidationSingle, h1, h2]
  · intro h
    have hc : (v.data.all isPySpace && !required) = false := by
      cases hr : required <;> cases ha : v.data.all isPySpace <;> simp_all
    constructor
    · rintro ⟨c, hmem, he⟩
      have hany : choiceValues.any (fun c => pyEq c (PyVal.str v)) = true :=
        List.any_eq_true.mpr ⟨c, hmem, he⟩
      simp [choiceAfterValidationSingle, hc, hany]
    · intro hall
      have hany : choiceValues.any (fun c => pyEq c (PyVal.str v)) = false := by
        rw [List.any_eq_false]
        intro c hmem
        simp [hall c hmem]
      simp [choiceAfterValidationSingle, hc, hany]

/-- Witness for C6: a declared token is accepted, an all-whitespace token on
an optional field validates to the empty string, and a non-member fails with
the declared-token message. -/
theorem choice_single_amended_witness :
    choiceAfterValidationSingle [PyVal.str "a", PyVal.str "b"] true "b"
      = .ok (PyVal.str "b") ∧
    choiceAfterValidationSingle [PyVal.str "a"] false "   "
      = .ok (PyVal.str "") ∧
    choiceAfterValidationSingle [PyVal.str "a"] true "z"
      = .error "Input should be in ['a']" :=
  ⟨(((choice_single_amended [PyVal.str "a", PyVal.str "b"] true "b").2
        (by simp)).1 ⟨PyVal.str "b", by simp, rfl⟩),
   ((choice_single_amended [PyVal.str "a"] false "   ").1 ⟨by decide, rfl⟩),
   (((choice_single_amended [PyVal.str "a"] true "z").2 (by simp)).2
      (by
        intro c hmem
        rw [List.mem_singleton] at hmem
        subst hmem
        rfl))⟩

/-- Counterexample to C6 as stated: with the single declared token being the
integer 1, the submitted token "1" equals the declared token after the
`coerce_type` (string) conversion, so per the claim it must be accepted; the
source compares without the conversion and rejects it. -/
theorem choice_single_claim_counterexample :
    specChoiceMemberSingle [PyVal.int 1] "1" = true ∧
    choiceAfterValidationSingle [PyVal.int 1] true "1" =
      .error "Input should be in [1]" :=
  ⟨rfl, rfl⟩

theorem dictGetD_of_not_has {d : List (String × PyVal)} {k : String}
    (h : dictHas d k = false) (v : PyVal) : dictGetD d k v = v := by
  unfold dictHas at h
  unfold dictGetD
  cases hl : d.lookup k with
  | none => rfl
  | some x => rw [hl] at h; simp at h

theorem lookup_dictSet_self (d : List (String × PyVal)) (k : String)
    (v : PyVal) : (dictSet d k v).lookup k = some v := by
  induction d with
  | nil => simp [dictSet, List.lookup_cons]
  | cons p ps ih =>
    obtain ⟨a, b⟩ := p
    by_cases hp : a = k
    · subst hp
      simp [dictSet, List.lookup_cons]
    · simp [dictSet, beq_false_of_ne hp, List.lookup_cons,
        beq_false_of_ne (Ne.symm hp), ih]

theorem lookup_filter_ne (d : List (String × PyVal)) (k k2 : String)
    (hne : k ≠ k2) :
    (d.filter (fun p => p.1 != k2)).lookup k = d.lookup k := by
  induction d with
  | nil => rfl
  | cons p ps ih =>
    obtain ⟨a, b⟩ := p
    by_cases hp : a = k2
    · simp [List.filter_cons, hp, List.lookup_cons, beq_false_of_ne hne, ih]
    · by_cases hq : k = a
      · subst hq
        simp [List.filter_cons, bne, beq_false_of_ne hp, List.lookup_cons]
      · simp only [List.filter_cons, bne, beq_false_of_ne hp, Bool.not_false,
          if_true, List.lookup_cons, beq_false_of_ne hq]
        simpa [bne] using ih

theorem rebuild_second_error (z fia2 : List (String × PyVal))
    (hz : dictGetD z "field_info_args" (PyVal.dict []) = PyVal.dict fia2)
    (ha : dictHas fia2 "alias" = true) (selfName : String)
    (origAnnot annot name aliasName dflt dfltFactory : PyVal) :
    rebuild z selfName origAnnot annot name aliasName dflt dfltFactory
      = .error "TypeError: got multiple values for keyword argument" := by
  unfold rebuild
  rw [hz]
  simp [ha]

/-- C7 (corrected): on a template whose stored construction arguments do not
yet hold a `field_info_args` entry (the state right after construction),
`rebuild` returns a new field of the template's class whose name, alias,
annotation and default are the given overrides with fallback to the original
values; but the call rewrites the template's stored construction arguments
in place (afterwards they do hold a `field_info_args` entry), and every
subsequent `rebuild` of the same template raises `TypeError` (the stored
`field_info_args` now collides with the explicit `alias=`/`annotation=`/
`default=`/`default_factory=` keywords) instead of reproducing the result. -/
theorem rebuild_amended (stored : List (String × PyVal)) (selfName : String)
    (origAnnot annot name aliasName dflt dfltFactory : PyVal)
    (h : dictHas stored "field_info_args" = false) :
    (match rebuild stored selfName origAnnot annot name aliasName dflt
        dfltFactory with
     | .ok (fd, z) =>
        fd.name = pyOr name (PyVal.str selfName) ∧
        fd.aliasName = pyOr aliasName (pyOr name (PyVal.str selfName)) ∧
        fd.annot = pyOr annot origAnnot ∧
        fd.dflt = (match pyOr dflt PyVal.ell with
          | PyVal.ell => PyVal.none
          | d => d) ∧
        dictHas z "field_info_args" = true ∧
        (∀ annot2 name2 aliasName2 dflt2 dfltFactory2,
          rebuild z selfName origAnnot annot2 name2 aliasName2 dflt2
              dfltFactory2
            = .error "TypeError: got multiple values for keyword argument")
     | .error _ => False) := by
  unfold rebuild
  rw [dictGetD_of_not_has h]
  refine ⟨rfl, rfl, rfl, rfl, ?_, ?_⟩
  · unfold dictHas dictPop
    rw [lookup_filter_ne _ "field_info_args" "args" (by decide),
      lookup_dictSet_self]
    rfl
  · intro annot2 name2 aliasName2 dflt2 dfltFactory2
    refine rebuild_second_error _
      [("alias", pyOr aliasName (pyOr name (PyVal.str selfName))),
       ("annotation", pyOr annot origAnnot),
       ("default", pyOr dflt PyVal.ell),
       ("default_factory", pyOr dfltFactory PyVal.none)]
      ?_ ?_ selfName origAnnot annot2 name2 aliasName2 dflt2 dfltFactory2
    · unfold dictGetD dictPop
      rw [lookup_filter_ne _ "field_info_args" "args" (by decide),
        lookup_dictSet_self]
      rfl
    · rfl

/-- Witness for C7: rebuilding a plain template (stored arguments
`{"args": ()}`) under a new name and prefixed alias succeeds once, leaves
the stored arguments holding a `field_info_args` entry, and fails on the
second rebuild. -/
theorem rebuild_amended_witness :
    (match rebuild [("args", PyVal.tuple [])] "listItem" (PyVal.str "str")
        PyVal.none (PyVal.str "child") (PyVal.str "p.child") PyVal.none
        PyVal.none with
     | .ok (fd, z) =>
        fd.name = PyVal.str "child" ∧
        fd.aliasName = PyVal.str "p.child" ∧
        dictHas z "field_info_args" = true ∧
        rebuild z "listItem" (PyVal.str "str") PyVal.none (PyVal.str "child")
            (PyVal.str "p.child") PyVal.none PyVal.none
          = .error "TypeError: got multiple values for keyword argument"
     | .error _ => False) := by
  have h := rebuild_amended [("args", PyVal.tuple [])] "listItem"
    (PyVal.str "str") PyVal.none (PyVal.str "child") (PyVal.str "p.child")
    PyVal.none PyVal.none rfl
  exact ⟨h.1, h.2.1, h.2.2.2.2.1, h.2.2.2.2.2 _ _ _ _ _⟩

/-- Counterexample to C7 as stated: the template's stored construction
arguments are `{"args": ()}` before the rebuild; afterwards they hold a
`field_info_args` entry and no `args` entry (the original instance was
modified), and repeating the same rebuild call returns a `TypeError` instead
of succeeding with the same result. -/
theorem rebuild_claim_counterexample :
    dictHas [("args", PyVal.tuple [])] "field_info_args" = false ∧
    (match rebuild [("args", PyVal.tuple [])] "listItem" (PyVal.str "str")
        PyVal.none (PyVal.str "child") (PyVal.str "p.child") PyVal.none
        PyVal.none with
     | .ok (_, z) =>
        dictHas z "field_info_args" = true ∧
        dictHas z "args" = false ∧
        rebuild z "listItem" (PyVal.str "str") PyVal.none (PyVal.str "child")
            (PyVal.str "p.child") PyVal.none PyVal.none
          = .error "TypeError: got multiple values for keyword argument"
     | .error _ => False) :=
  ⟨rfl, rfl, rfl, rfl⟩

/-- C2 (corrected): after a `process_form` pass on a freshly constructed
manager — equivalently after a `validate` pass whose request method is one
of the three write verbs, so that `validate_on_write` does not short-circuit
— exactly one of `value` set (non-`None`) or `errors` non-empty holds,
provided the whole-record engine returns a non-`None` value on success.  A
`validate` call short-circuited by `validate_on_write` on a read method
leaves neither (see the counterexample). -/
theorem manager_exclusive_amended
    (formValidate : List (String × PyVal) → PyVal × List String)
    (outs : List FieldOutcome) (method : String) (validateOnWrite : Bool)
    (hfv : ∀ d, (formValidate d).2 = [] → (formValidate d).1 ≠ PyVal.none)
    (hm : method = "post" ∨ method = "patch" ∨ method = "put") :
    (((processForm formValidate outs initManager).value ≠ PyVal.none ∧
      (processForm formValidate outs initManager).errors = []) ∨
     ((processForm formValidate outs initManager).value = PyVal.none ∧
      (processForm formValidate outs initManager).errors ≠ [])) ∧
    (validateAsync formValidate outs method validateOnWrite initManager).1 =
      processForm formValidate outs initManager := by
  constructor
  · cases he : (processFormFieldsData outs).2.1.isEmpty with
    | true =>
      cases hf : (formValidate (processFormFieldsData outs).1).2.isEmpty with
      | true =>
        left
        constructor
        · have hv : (processForm formValidate outs initManager).value =
              (formValidate (processFormFieldsData outs).1).1 := by
            simp [processForm, he, hf]
          rw [hv]
          exact hfv _ (List.isEmpty_iff.mp hf)
        · simp [processForm, he, hf, initManager]
      | false =>
        right
        constructor
        · simp [processForm, he, hf, initManager]
        · simp [processForm, he, hf]
    | false =>
      right
      constructor
      · simp [processForm, he, initManager]
      · have herr : (processForm formValidate outs initManager).errors =
            (processFormFieldsData outs).2.1 := by
          simp [processForm, he]
        rw [herr]
        intro hc
        rw [hc] at he
        simp at he
  · rcases hm with rfl | rfl | rfl <;>
      cases validateOnWrite <;> simp [validateAsync]

/-- Witness for C2: an empty field set with a trivially succeeding
whole-record engine validates to a set value and empty errors on a POST
request. -/
theorem manager_exclusive_amended_witness :
    (((processForm (fun d => (PyVal.dict d, [])) [] initManager).value
        ≠ PyVal.none ∧
      (processForm (fun d => (PyVal.dict d, [])) [] initManager).errors = []) ∨
     ((processForm (fun d => (PyVal.dict d, [])) [] initManager).value
        = PyVal.none ∧
      (processForm (fun d => (PyVal.dict d, [])) [] initManager).errors ≠ [])) ∧
    (validateAsync (fun d => (PyVal.dict d, [])) [] "post" true initManager).1
      = processForm (fun d => (PyVal.dict d, [])) [] initManager :=
  manager_exclusive_amended (fun d => (PyVal.dict d, [])) [] "post" true
    (fun d _ => by simp) (Or.inl rfl)

/-- Counterexample to C2 as stated: on a GET request with
`validate_on_write` enabled, `validate` completes (returning `False`)
without running `process_form`; afterwards the manager has neither a value
nor any error — "never neither" fails for this completed validate pass. -/
theorem manager_claim_counterexample :
    (validateAsync (fun d => (PyVal.dict d, [])) [] "get" true initManager).2
      = false ∧
    (validateAsync (fun d => (PyVal.dict d, [])) [] "get" true
        initManager).1.value = PyVal.none ∧
    (validateAsync (fun d => (PyVal.dict d, [])) [] "get" true
        initManager).1.errors = [] :=
  ⟨rfl, rfl, rfl⟩

end Zform
